import Mathlib

/-!
# goredchat: a terminal chat client over a key-value / pub-sub store

A shallow embedding of `main.go`.  The program is one function, `main`, with two
anonymous goroutines.  The embedding follows the source block by block:

* `startup`      lines 32-56   lease acquisition (`SET .. NX EX 120`) and `SADD`
* `launch`       lines 59-104  ticker, the two goroutines, the "has joined" notice
* `selectCase`   lines 109-132 one iteration of the `select` in the chat loop
* `chatLoop`     lines 106-133 the `for !chatExit` loop
* `shutdown`     lines 136-140 `DEL`, `SREM`, `PUBLISH`, then the deferred calls
* `chat`, `session`, `main`    the blocks above in sequence
* `subscriber`   lines 64-84   the goroutine feeding `subchan`
* `reader`       lines 89-102  the goroutine feeding `saychan`, run against the
                               loop that receives from it

Every observable action (a store command, a line printed, a goroutine started, a
value sent on a channel) is appended to a trace, so that "issues exactly these
commands" and "prints nothing" are statements about that trace.  The store
connection is a parameter `exec`, the capability `conn.Do`; `Redis.exec` is an
instance with leases, sets, a channel log and injected store errors.
-/

namespace GoRedChat

/-! ## Store commands and replies -/

/-- The store commands the program sends through `conn.Do`. -/
inductive Cmd where
  /-- Set-if-absent-with-expiry, `SET key value NX EX ttl` (line 33). -/
  | setNX (key value : String) (ttl : Nat)
  /-- Set-if-present-with-expiry, `SET key value XX EX ttl` (line 113). -/
  | setXX (key value : String) (ttl : Nat)
  /-- Delete, `DEL key` (lines 44, 136). -/
  | del (key : String)
  /-- Set-add, `SADD set member` (line 46). -/
  | sadd (set member : String)
  /-- Set-remove, `SREM set member` (line 137). -/
  | srem (set member : String)
  /-- Set-members, `SMEMBERS set` (line 122). -/
  | smembers (set : String)
  /-- Publish, `PUBLISH channel payload` (lines 104, 127, 138). -/
  | publish (channel payload : String)
  deriving DecidableEq, Repr

/-- A reply value as `conn.Do` hands it back (an `interface{}` in the source):
`nil`, a status line such as `OK`, an integer, a bulk string, or an array whose
elements are bulk strings or nil. -/
inductive Reply where
  | nil
  | status (s : String)
  | int (n : Int)
  | bulk (s : String)
  | array (xs : List (Option String))
  deriving DecidableEq, Repr

/-- The pair `(reply, err)` returned by `conn.Do`; `err = none` is Go's `err == nil`. -/
structure DoResult where
  val : Reply
  err : Option String
  deriving DecidableEq, Repr

/-! ## Observable effects -/

/-- One observable action of the process. -/
inductive Effect where
  /-- A command sent with `conn.Do(...)` on the main connection. -/
  | doCmd (c : Cmd)
  /-- A line printed with `fmt.Println(s)`. -/
  | println (s : String)
  /-- Text printed with `fmt.Print(s)`. -/
  | print (s : String)
  /-- The ticker made by `time.NewTicker(time.Second * secs)`. -/
  | newTicker (secs : Nat)
  /-- The `go` statement that starts the subscriber (line 64). -/
  | goSubscriber
  /-- The `go` statement that starts the line reader (line 89). -/
  | goReader
  /-- A send `subchan <- s`. -/
  | sendSub (s : String)
  /-- A send `saychan <- s`. -/
  | sendSay (s : String)
  /-- A pause `time.Sleep(ms * time.Millisecond)`. -/
  | sleep (ms : Nat)
  /-- The deferred `conn.Close()`. -/
  | closeConn
  deriving DecidableEq, Repr

/-- The process state seen by `main`: the connection and the trace so far. -/
structure World (σ : Type) where
  conn : σ
  trace : List Effect

/-- The call `conn.Do(c)`: run the command on the connection and record it. -/
def connDo {σ : Type} (exec : σ → Cmd → σ × DoResult) (c : Cmd) (w : World σ) :
    World σ × DoResult :=
  ({ conn := (exec w.conn c).1, trace := w.trace ++ [Effect.doCmd c] }, (exec w.conn c).2)

/-- The call `fmt.Println(s)`. -/
def println {σ : Type} (s : String) (w : World σ) : World σ :=
  { w with trace := w.trace ++ [Effect.println s] }

/-- Record an effect that does not touch the connection. -/
def emit {σ : Type} (e : Effect) (w : World σ) : World σ :=
  { w with trace := w.trace ++ [e] }

/-- The helper `redis.Strings(reply, err)` of the client library, which is not
part of the source: with an error it returns no names and the error; an array
reply becomes its elements (a nil element is the empty string); any other reply
is an error with no names.  Line 122 keeps the names and drops the error. -/
def redisStrings (r : DoResult) : List String × Option String :=
  match r.err with
  | some e => ([], some e)
  | none =>
    match r.val with
    | Reply.array xs => (xs.map (fun x => x.getD ""), none)
    | Reply.nil => ([], some "redigo: nil returned")
    | _ => ([], some "redigo: unexpected type for Strings")

/-! ## The main goroutine -/

/-- Line 32: `userkey := "online." + username`. -/
def userkey (username : String) : String := "online." ++ username

/-- Lines 32-56.  `some code` is `os.Exit(code)`, which ends the process at once
and runs no deferred call; `none` means execution continues at line 58. -/
def startup {σ : Type} (exec : σ → Cmd → σ × DoResult) (username : String) (w : World σ) :
    World σ × Option Nat :=
  let a := connDo exec (Cmd.setNX (userkey username) username 120) w
  match a.2.err with
  | some e => (println e a.1, some 1)
  | none =>
    if a.2.val = Reply.nil then (println "User already online" a.1, some 1)
    else
      let b := connDo exec (Cmd.sadd "users" username) a.1
      match b.2.err with
      | some e => (println e b.1, some 1)
      | none =>
        if b.2.val = Reply.nil then (println "User still in online set" b.1, some 1)
        else (b.1, none)

/-- Lines 59-104: the ticker, the two goroutines, and the "has joined" notice. -/
def launch {σ : Type} (exec : σ → Cmd → σ × DoResult) (username : String) (w : World σ) :
    World σ :=
  let w1 := emit (Effect.newTicker 60) w
  let w2 := emit Effect.goSubscriber w1
  let w3 := emit Effect.goReader w2
  (connDo exec (Cmd.publish "messages" (username ++ " has joined")) w3).1

/-- What one `select` (line 109) picks. -/
inductive Action where
  /-- The case `msg := <-subchan`. -/
  | incomingMessage (msg : String)
  /-- The case `<-tickerChan`. -/
  | renewTick
  /-- The case `line := <-saychan`. -/
  | userLine (line : String)
  /-- The `default` case: nothing was ready. -/
  | idle
  deriving DecidableEq, Repr

/-- Lines 109-132: one iteration of the loop body.  The boolean is the value of
`chatExit` afterwards (`false`: Running, `true`: Exiting). -/
def selectCase {σ : Type} (exec : σ → Cmd → σ × DoResult) (username : String)
    (a : Action) (w : World σ) : World σ × Bool :=
  match a with
  | Action.incomingMessage msg => (println msg w, false)
  | Action.renewTick =>
    let r := connDo exec (Cmd.setXX (userkey username) username 120) w
    match r.2.err with
    | some _ => (println "Set failed" r.1, false)
    | none => (r.1, false)
  | Action.userLine line =>
    if line = "/exit" then (w, true)
    else if line = "/who" then
      let r := connDo exec (Cmd.smembers "users") w
      ((redisStrings r.2).1.foldl (fun acc name => println name acc) r.1, false)
    else
      ((connDo exec (Cmd.publish "messages" (username ++ ":" ++ line)) w).1, false)
  | Action.idle => (emit (Effect.sleep 100) w, false)

/-- Lines 106-133: `for !chatExit { select ... }` over the actions the `select`
picks, in order.  With no action left the loop is still Running (`false`). -/
def chatLoop {σ : Type} (exec : σ → Cmd → σ × DoResult) (username : String) :
    List Action → World σ → World σ × Bool
  | [], w => (w, false)
  | a :: rest, w =>
    if (selectCase exec username a w).2 then ((selectCase exec username a w).1, true)
    else chatLoop exec username rest (selectCase exec username a w).1

/-- Lines 136-140: the three farewell commands, whose results are not looked at,
then the deferred calls in reverse order of their `defer` (the `DEL` of line 44,
the `Close` of line 27), then return from `main`: exit status 0. -/
def shutdown {σ : Type} (exec : σ → Cmd → σ × DoResult) (username : String) (w : World σ) :
    World σ × Nat :=
  let w1 := (connDo exec (Cmd.del (userkey username)) w).1
  let w2 := (connDo exec (Cmd.srem "users" username) w1).1
  let w3 := (connDo exec (Cmd.publish "messages" (username ++ " has left")) w2).1
  let w4 := (connDo exec (Cmd.del (userkey username)) w3).1
  (emit Effect.closeConn w4, 0)

/-- How far a run of the process got. -/
inductive Status where
  /-- Still in the chat loop, waiting for the next action. -/
  | running
  /-- The process ended with this exit status. -/
  | exited (code : Nat)
  deriving DecidableEq, Repr

/-- Lines 106-140: the loop over the given actions and, once `chatExit` is set,
the shutdown. -/
def chat {σ : Type} (exec : σ → Cmd → σ × DoResult) (username : String)
    (actions : List Action) (w : World σ) : World σ × Status :=
  if (chatLoop exec username actions w).2 then
    ((shutdown exec username (chatLoop exec username actions w).1).1,
      Status.exited (shutdown exec username (chatLoop exec username actions w).1).2)
  else ((chatLoop exec username actions w).1, Status.running)

/-- Lines 32-140 on an open connection: startup, launch, then the chat. -/
def session {σ : Type} (exec : σ → Cmd → σ × DoResult) (username : String)
    (actions : List Action) (w : World σ) : World σ × Status :=
  match (startup exec username w).2 with
  | some code => ((startup exec username w).1, Status.exited code)
  | none => chat exec username actions (launch exec username (startup exec username w).1)

/-- The whole of `main`: `args` is `os.Args`, `connect` the result of
`redisurl.Connect()`.  The connection is absent from the result when it was
never opened. -/
def main {σ : Type} (exec : σ → Cmd → σ × DoResult) (args : List String)
    (connect : Except String σ) (actions : List Action) :
    Option σ × List Effect × Status :=
  if args.length ≠ 2 then
    (none, [Effect.println "Usage: goredchat username"], Status.exited 1)
  else
    match connect with
    | Except.error e => (none, [Effect.println e], Status.exited 1)
    | Except.ok c =>
      let r := session exec (args.getD 1 "") actions { conn := c, trace := [] }
      (some r.1.conn, r.1.trace, r.2)

/-! ## The two goroutines -/

/-- How a goroutine ended. -/
inductive TaskEnd where
  /-- Blocked in its next receive or read: no further input was supplied. -/
  | blocked
  /-- The goroutine function returned. -/
  | returned
  /-- Blocked in a send on an unbuffered channel that nobody receives from. -/
  | blockedSend
  /-- The goroutine called `os.Exit(code)`. -/
  | osExit (code : Nat)
  deriving DecidableEq, Repr

/-- What `psc.Receive()` returns (line 75): a message, a subscription
acknowledgement, an error, or a value of a type the switch has no case for. -/
inductive Received where
  | message (channel data : String)
  | subscription (kind channel : String) (count : Nat)
  | error (e : String)
  | other
  deriving DecidableEq, Repr

/-- Lines 74-83: the receive loop over the events `psc.Receive()` yields. -/
def subscriberLoop : List Received → List Effect × TaskEnd
  | [] => ([], TaskEnd.blocked)
  | Received.message _ data :: rest =>
    (Effect.sendSub data :: (subscriberLoop rest).1, (subscriberLoop rest).2)
  | Received.subscription _ _ _ :: rest => subscriberLoop rest
  | Received.error _ :: _ => ([], TaskEnd.returned)
  | Received.other :: rest => subscriberLoop rest

/-- Lines 64-84: the subscriber goroutine.  `connectErr` is the error of its own
`redisurl.Connect()`. -/
def subscriber (connectErr : Option String) (events : List Received) :
    List Effect × TaskEnd :=
  match connectErr with
  | some e => ([Effect.println e], TaskEnd.osExit 1)
  | none => subscriberLoop events

/-- The triple `(line, isPrefix, err)` returned by `bio.ReadLine()` (line 94). -/
structure ReadLine where
  line : String
  isPrefix : Bool
  err : Option String
  deriving DecidableEq, Repr

/-- The cases of the `select` (line 109) that do not receive from `saychan`. -/
inductive Background where
  /-- The case `msg := <-subchan`. -/
  | incomingMessage (msg : String)
  /-- The case `<-tickerChan`. -/
  | renewTick
  /-- The `default` case. -/
  | idle
  deriving DecidableEq, Repr

/-- The action of the loop for a case that does not receive from `saychan`. -/
def Background.toAction : Background → Action
  | Background.incomingMessage msg => Action.incomingMessage msg
  | Background.renewTick => Action.renewTick
  | Background.idle => Action.idle

/-- One round of the reader goroutine as the process lives it: the cases the
loop handles while the reader is in `bio.ReadLine()` and in its send, then the
result of that `ReadLine`. -/
structure Turn where
  before : List Background
  read : ReadLine
  deriving DecidableEq, Repr

/-- A run of the reader goroutine against the loop. -/
structure ReaderRun (σ : Type) where
  /-- What the reader printed and the sends on `saychan` that completed. -/
  trace : List Effect
  /-- How the reader ended. -/
  task : TaskEnd
  /-- The main goroutine after the actions it handled. -/
  world : World σ
  /-- The value of `chatExit` in the main goroutine. -/
  chatExit : Bool

/-- Lines 92-100 once the loop has left `for !chatExit`: the reader prints its
prompt and reads on, and the send that follows a read never completes, as
`saychan` (line 88) is unbuffered and is received from only inside the loop
(line 118).  This is as far as the reader can get before the process ends. -/
def readerStalled (username : String) : List Turn → List Effect × TaskEnd
  | [] => ([Effect.print (username ++ ">")], TaskEnd.blocked)
  | t :: _ =>
    match t.read.err with
    | some e => ([Effect.print (username ++ ">"), Effect.println e], TaskEnd.blockedSend)
    | none => ([Effect.print (username ++ ">")], TaskEnd.blockedSend)

/-- Lines 89-102: the reader goroutine, run against the loop of lines 106-133
that receives what it sends.  `saychan` is unbuffered (line 88), so a send
completes when the loop picks the case of line 118; the loop then handles the
line, and it receives again only if `chatExit` is still false.  Started with the
loop Running.  The second result of `ReadLine` is not looked at. -/
def reader {σ : Type} (exec : σ → Cmd → σ × DoResult) (username : String) :
    List Turn → World σ → ReaderRun σ
  | [], w =>
    { trace := [Effect.print (username ++ ">")], task := TaskEnd.blocked, world := w,
      chatExit := false }
  | t :: rest, w =>
    match t.read.err with
    | some e =>
      { trace := [Effect.print (username ++ ">"), Effect.println e, Effect.sendSay "/exit"],
        task := TaskEnd.returned,
        world := (chatLoop exec username
          (t.before.map Background.toAction ++ [Action.userLine "/exit"]) w).1,
        chatExit := (chatLoop exec username
          (t.before.map Background.toAction ++ [Action.userLine "/exit"]) w).2 }
    | none =>
      if (chatLoop exec username
          (t.before.map Background.toAction ++ [Action.userLine t.read.line]) w).2 then
        { trace := Effect.print (username ++ ">") :: Effect.sendSay t.read.line ::
            (readerStalled username rest).1,
          task := (readerStalled username rest).2,
          world := (chatLoop exec username
            (t.before.map Background.toAction ++ [Action.userLine t.read.line]) w).1,
          chatExit := true }
      else
        { reader exec username rest (chatLoop exec username
            (t.before.map Background.toAction ++ [Action.userLine t.read.line]) w).1 with
          trace := Effect.print (username ++ ">") :: Effect.sendSay t.read.line ::
            (reader exec username rest (chatLoop exec username
              (t.before.map Background.toAction ++ [Action.userLine t.read.line]) w).1).trace }

/-- The input of the reader when every line comes back whole from one
`ReadLine` (`isPrefix` false), each with the cases the loop handles meanwhile. -/
def wholeLines (ls : List (List Background × String)) : List Turn :=
  ls.map (fun p => { before := p.1, read := { line := p.2, isPrefix := false, err := none } })

/-- The values a trace sends on `subchan`, in order. -/
def sentSub (t : List Effect) : List String :=
  t.filterMap (fun e => match e with | Effect.sendSub s => some s | _ => none)

/-- The values a trace sends on `saychan`, in order. -/
def sentSay (t : List Effect) : List String :=
  t.filterMap (fun e => match e with | Effect.sendSay s => some s | _ => none)

/-! ## The store -/

/-- Modelled from the spec: the shared store behind `conn.Do`, which is an
external service and not part of the source.  It holds the leases (a key with a
value and the time at which it expires), the sets, and the payloads published so
far, as sections 3 and 6 of the specification describe them. -/
structure Store where
  /-- The current time, in the unit of the TTL. -/
  now : Nat
  /-- String keys: value and expiry time. -/
  strings : String → Option (String × Nat)
  /-- Set keys: the members, in the order the store returns them. -/
  sets : String → List String
  /-- Subscribers attached to each channel. -/
  subscribers : String → Nat
  /-- Every `(channel, payload)` published so far, oldest first. -/
  channel : List (String × String)

/-- A key is live when it is present and its expiry time has not been reached. -/
def Store.live (s : Store) (k : String) : Bool :=
  match s.strings k with
  | some (_, expiresAt) => decide (s.now < expiresAt)
  | none => false

/-- Time passes: `d` units later. -/
def Store.advance (d : Nat) (s : Store) : Store :=
  { s with now := s.now + d }

/-- A store with nothing in it, at time 0. -/
def Store.empty : Store :=
  { now := 0, strings := fun _ => none, sets := fun _ => [], subscribers := fun _ => 0,
    channel := [] }

/-- Modelled from the spec: the store operations of section 6.
Set-if-absent-with-expiry and set-if-present-with-expiry reply `OK` or nil;
delete, set-add, set-remove and publish reply an integer; set-members replies
the members. -/
def Store.apply (s : Store) : Cmd → Store × Reply
  | Cmd.setNX k v ttl =>
    if s.live k then (s, Reply.nil)
    else ({ s with strings := fun x => if x = k then some (v, s.now + ttl) else s.strings x },
      Reply.status "OK")
  | Cmd.setXX k v ttl =>
    if s.live k then
      ({ s with strings := fun x => if x = k then some (v, s.now + ttl) else s.strings x },
        Reply.status "OK")
    else (s, Reply.nil)
  | Cmd.del k =>
    ({ s with strings := fun x => if x = k then none else s.strings x },
      Reply.int (if s.live k then 1 else 0))
  | Cmd.sadd k m =>
    if m ∈ s.sets k then (s, Reply.int 0)
    else ({ s with sets := fun x => if x = k then s.sets k ++ [m] else s.sets x }, Reply.int 1)
  | Cmd.srem k m =>
    if m ∈ s.sets k then
      ({ s with sets := fun x => if x = k then (s.sets k).filter (fun y => y ≠ m) else s.sets x },
        Reply.int 1)
    else (s, Reply.int 0)
  | Cmd.smembers k => (s, Reply.array ((s.sets k).map some))
  | Cmd.publish c p => ({ s with channel := s.channel ++ [(c, p)] }, Reply.int (s.subscribers c))

/-- A connection to the store: the store itself and, for each command still to
come, the error it will fail with, if any (an empty schedule injects none). -/
structure Redis where
  store : Store
  faults : List (Option String)

/-- A connection on which every command reaches the store. -/
def Redis.ok (s : Store) : Redis := { store := s, faults := [] }

/-- The call `conn.Do` on a `Redis` connection: a scheduled fault is returned as the
error, with a nil reply and the store untouched; otherwise the store applies the
command. -/
def Redis.exec (r : Redis) (c : Cmd) : Redis × DoResult :=
  match r.faults.headD none with
  | some e => ({ store := r.store, faults := r.faults.tail }, { val := Reply.nil, err := some e })
  | none =>
    ({ store := (r.store.apply c).1, faults := r.faults.tail },
      { val := (r.store.apply c).2, err := none })

/-! ## Reading a stream of events -/

/-- Whether a received event is an error (the `case error` of line 80). -/
def Received.isError : Received → Bool
  | Received.error _ => true
  | _ => false

/-- The payload of a received event, when it is a message. -/
def Received.payload : Received → Option String
  | Received.message _ data => some data
  | _ => none

/-- A store in which "alice" is still a member of "users" and no lease exists:
what a session that ended without its farewell leaves behind. -/
def Store.staleAlice : Store :=
  { Store.empty with sets := fun k => if k = "users" then ["alice"] else [] }

/-! ## Auxiliary facts -/

theorem foldl_println_trace {σ : Type} (names : List String) (w : World σ) :
    names.foldl (fun acc name => println name acc) w =
      { conn := w.conn, trace := w.trace ++ names.map Effect.println } := by
  induction names generalizing w with
  | nil => simp
  | cons n ns ih =>
    rw [List.foldl_cons, ih]
    simp [println]

theorem map_getD_map_some (xs : List String) :
    (xs.map some).map (fun x => x.getD "") = xs := by
  induction xs with
  | nil => rfl
  | cons x xs ih =>
    rw [List.map_cons, List.map_cons, ih]
    rfl

theorem Store.apply_setNX_of_dead (s : Store) (k v : String) (ttl : Nat)
    (h : s.live k = false) :
    s.apply (Cmd.setNX k v ttl) =
      ({ s with strings := fun x => if x = k then some (v, s.now + ttl) else s.strings x },
        Reply.status "OK") := by
  simp [Store.apply, h]

theorem Store.live_advance_of_set (s : Store) (k v : String) (ttl d : Nat) :
    (Store.advance d
      { s with strings := fun x => if x = k then some (v, s.now + ttl) else s.strings x }).live k
      = decide (d < ttl) := by
  simp [Store.live, Store.advance]

theorem chatLoop_background {σ : Type} (exec : σ → Cmd → σ × DoResult) (U line : String)
    (bs : List Background) (w : World σ) :
    (chatLoop exec U (bs.map Background.toAction ++ [Action.userLine line]) w).2
      = decide (line = "/exit") := by
  induction bs generalizing w with
  | nil =>
    by_cases h : line = "/exit"
    · simp [chatLoop, selectCase, h]
    · by_cases h2 : line = "/who" <;> simp [chatLoop, selectCase, h, h2]
  | cons b bs ih =>
    have hb : (selectCase exec U b.toAction w).2 = false := by
      cases b <;> simp [Background.toAction, selectCase]
      split <;> rfl
    simp only [List.map_cons, List.cons_append, chatLoop, hb]
    exact ih _

theorem sentSay_readerStalled (U : String) (ts : List Turn) :
    sentSay (readerStalled U ts).1 = [] := by
  cases ts with
  | nil => simp [readerStalled, sentSay]
  | cons t rest =>
    cases he : t.read.err <;> simp [readerStalled, sentSay, he]

theorem readerStalled_task (U : String) (t : Turn) (ts : List Turn) :
    (readerStalled U (t :: ts)).2 = TaskEnd.blockedSend := by
  cases he : t.read.err <;> simp [readerStalled, he]

theorem sentSay_cons_print (s : String) (t : List Effect) :
    sentSay (Effect.print s :: t) = sentSay t := by
  simp [sentSay]

theorem sentSay_cons_sendSay (s : String) (t : List Effect) :
    sentSay (Effect.sendSay s :: t) = s :: sentSay t := by
  simp [sentSay]

theorem reader_cons_line {σ : Type} (exec : σ → Cmd → σ × DoResult) (U line : String)
    (bs : List Background) (rest : List Turn) (w : World σ) (hline : line ≠ "/exit") :
    reader exec U
        ({ before := bs, read := { line := line, isPrefix := false, err := none } } :: rest) w =
      { trace := Effect.print (U ++ ">") :: Effect.sendSay line ::
          (reader exec U rest (chatLoop exec U
            (bs.map Background.toAction ++ [Action.userLine line]) w).1).trace,
        task := (reader exec U rest (chatLoop exec U
            (bs.map Background.toAction ++ [Action.userLine line]) w).1).task,
        world := (reader exec U rest (chatLoop exec U
            (bs.map Background.toAction ++ [Action.userLine line]) w).1).world,
        chatExit := (reader exec U rest (chatLoop exec U
            (bs.map Background.toAction ++ [Action.userLine line]) w).1).chatExit } := by
  simp [reader, chatLoop_background, hline]

theorem reader_cons_exit {σ : Type} (exec : σ → Cmd → σ × DoResult) (U : String)
    (bs : List Background) (rest : List Turn) (w : World σ) :
    reader exec U
        ({ before := bs, read := { line := "/exit", isPrefix := false, err := none } } :: rest) w =
      { trace := Effect.print (U ++ ">") :: Effect.sendSay "/exit" :: (readerStalled U rest).1,
        task := (readerStalled U rest).2,
        world := (chatLoop exec U
            (bs.map Background.toAction ++ [Action.userLine "/exit"]) w).1,
        chatExit := true } := by
  simp [reader, chatLoop_background]

theorem wholeLines_cons_append (p : List Background × String)
    (ps : List (List Background × String)) (tl : List Turn) :
    wholeLines (p :: ps) ++ tl =
      { before := p.1, read := { line := p.2, isPrefix := false, err := none } } ::
        (wholeLines ps ++ tl) := rfl

/-! ## The chat loop -/

/-- C1: for every username `U` and every line `L` other than "/exit" and "/who",
handling `UserLine(L)` in the Running state issues exactly one store command,
the publish of `U ++ ":" ++ L` on "messages", prints nothing, and leaves the loop
in Running. -/
theorem userLine_chat_publishes {σ : Type} (exec : σ → Cmd → σ × DoResult) (U L : String)
    (w : World σ) (hexit : L ≠ "/exit") (hwho : L ≠ "/who") :
    selectCase exec U (Action.userLine L) w =
      ({ conn := (exec w.conn (Cmd.publish "messages" (U ++ ":" ++ L))).1,
         trace := w.trace ++ [Effect.doCmd (Cmd.publish "messages" (U ++ ":" ++ L))] },
        false) := by
  simp [selectCase, connDo, hexit, hwho]

/-- Witness of C1 at the lines "", "/exit " and "/WHO" for user "alice" on an
empty store. -/
theorem userLine_chat_publishes_witness :
    (("" : String) ≠ "/exit" ∧ ("" : String) ≠ "/who") ∧
    selectCase Redis.exec "alice" (Action.userLine "") ⟨Redis.ok Store.empty, []⟩ =
      ({ conn := (Redis.exec (Redis.ok Store.empty) (Cmd.publish "messages" ("alice" ++ ":" ++ ""))).1,
         trace := [] ++ [Effect.doCmd (Cmd.publish "messages" ("alice" ++ ":" ++ ""))] }, false) ∧
    selectCase Redis.exec "alice" (Action.userLine "/exit ") ⟨Redis.ok Store.empty, []⟩ =
      ({ conn := (Redis.exec (Redis.ok Store.empty)
            (Cmd.publish "messages" ("alice" ++ ":" ++ "/exit "))).1,
         trace := [] ++ [Effect.doCmd (Cmd.publish "messages" ("alice" ++ ":" ++ "/exit "))] },
        false) ∧
    selectCase Redis.exec "alice" (Action.userLine "/WHO") ⟨Redis.ok Store.empty, []⟩ =
      ({ conn := (Redis.exec (Redis.ok Store.empty)
            (Cmd.publish "messages" ("alice" ++ ":" ++ "/WHO"))).1,
         trace := [] ++ [Effect.doCmd (Cmd.publish "messages" ("alice" ++ ":" ++ "/WHO"))] },
        false) :=
  ⟨⟨by decide, by decide⟩,
    userLine_chat_publishes Redis.exec "alice" "" ⟨Redis.ok Store.empty, []⟩
      (by decide) (by decide),
    userLine_chat_publishes Redis.exec "alice" "/exit " ⟨Redis.ok Store.empty, []⟩
      (by decide) (by decide),
    userLine_chat_publishes Redis.exec "alice" "/WHO" ⟨Redis.ok Store.empty, []⟩
      (by decide) (by decide)⟩

/-- C4: for every store state, handling `UserLine("/who")` in the Running state
issues the one command set-members("users"), prints exactly the members the
store returns, one per line and in that order, leaves the store as it was, and
leaves the loop in Running. -/
theorem who_prints_members (U : String) (s : Store) (t : List Effect) :
    selectCase Redis.exec U (Action.userLine "/who") ⟨Redis.ok s, t⟩ =
      ({ conn := Redis.ok s,
         trace := t ++ Effect.doCmd (Cmd.smembers "users") ::
           (s.sets "users").map Effect.println }, false) := by
  have h : ("/who" : String) ≠ "/exit" := by decide
  simp [selectCase, connDo, h, Redis.exec, Redis.ok, Store.apply, redisStrings,
    foldl_println_trace, map_getD_map_some]

/-! ## Startup -/

/-- C2: for every username `U` and every store state with a live lease under
"online." ++ U, the session ends at startup: the one command issued is the
set-if-absent, "User already online" is printed, the exit status is 1, and the
store is left exactly as it was. -/
theorem startup_conflict (U : String) (s : Store) (actions : List Action) (t : List Effect)
    (hlive : s.live (userkey U) = true) :
    session Redis.exec U actions ⟨Redis.ok s, t⟩ =
      ({ conn := Redis.ok s,
         trace := t ++ [Effect.doCmd (Cmd.setNX (userkey U) U 120),
           Effect.println "User already online"] }, Status.exited 1) := by
  simp [session, startup, connDo, println, Redis.exec, Redis.ok, Store.apply, hlive]

/-- Witness of C2: "alice" starts on a store where the lease "online.alice" was
acquired 119 units earlier. -/
theorem startup_conflict_witness :
    (Store.advance 119 (Store.empty.apply (Cmd.setNX (userkey "alice") "alice" 120)).1).live
        (userkey "alice") = true ∧
    session Redis.exec "alice" [Action.userLine "hi"]
        ⟨Redis.ok (Store.advance 119
          (Store.empty.apply (Cmd.setNX (userkey "alice") "alice" 120)).1), []⟩ =
      ({ conn := Redis.ok (Store.advance 119
          (Store.empty.apply (Cmd.setNX (userkey "alice") "alice" 120)).1),
         trace := [] ++ [Effect.doCmd (Cmd.setNX (userkey "alice") "alice" 120),
           Effect.println "User already online"] }, Status.exited 1) :=
  ⟨by decide, startup_conflict "alice" _ [Action.userLine "hi"] [] (by decide)⟩

/-! ## The goroutines -/

/-- C8, as the claim states it, fails: with the input lines "one", "/exit",
"two", "three" and then end of input, the reader forwards "one" and "/exit" and
nothing more, not the five values of the claim, and it does not return: the
loop has left at "/exit" and the send of "two" never completes. -/
theorem reader_stops_at_typed_exit :
    sentSay (reader Redis.exec "alice"
        (wholeLines [([], "one"), ([], "/exit"), ([], "two"), ([], "three")]
          ++ [{ before := [], read := { line := "", isPrefix := false, err := some "EOF" } }])
        ⟨Redis.ok Store.empty, []⟩).trace = ["one", "/exit"]
    ∧ sentSay (reader Redis.exec "alice"
        (wholeLines [([], "one"), ([], "/exit"), ([], "two"), ([], "three")]
          ++ [{ before := [], read := { line := "", isPrefix := false, err := some "EOF" } }])
        ⟨Redis.ok Store.empty, []⟩).trace ≠ ["one", "/exit", "two", "three", "/exit"]
    ∧ (reader Redis.exec "alice"
        (wholeLines [([], "one"), ([], "/exit"), ([], "two"), ([], "three")]
          ++ [{ before := [], read := { line := "", isPrefix := false, err := some "EOF" } }])
        ⟨Redis.ok Store.empty, []⟩).task = TaskEnd.blockedSend := by
  have h1 : ("one" : String) ≠ "/exit" := by decide
  have h2 : ("one" : String) ≠ "/who" := by decide
  have key : reader Redis.exec "alice"
      (wholeLines [([], "one"), ([], "/exit"), ([], "two"), ([], "three")]
        ++ [{ before := [], read := { line := "", isPrefix := false, err := some "EOF" } }])
      ⟨Redis.ok Store.empty, []⟩ =
      { trace := [Effect.print "alice>", Effect.sendSay "one", Effect.print "alice>",
          Effect.sendSay "/exit", Effect.print "alice>"],
        task := TaskEnd.blockedSend,
        world := (selectCase Redis.exec "alice" (Action.userLine "one")
          ⟨Redis.ok Store.empty, []⟩).1,
        chatExit := true } := by
    simp [wholeLines, reader, readerStalled, chatLoop, selectCase, h1, h2]
  rw [key]
  simp [sentSay]

/-- C8, amended: for every sequence of input lines, each returned whole by one
read, followed by end of input or a read error, whatever the loop handles in
between and from whatever Running state: if no line is "/exit" the reader
forwards exactly the lines, each once and in order, then a single "/exit", and
returns; if some line is "/exit" it forwards exactly the lines before the first
such line and then that line, and stays blocked in its next send.  Either way the
loop ends with `chatExit` set, and whatever input might follow is not forwarded. -/
theorem reader_forwards_until_exit {σ : Type} (exec : σ → Cmd → σ × DoResult) (U : String)
    (ls : List (List Background × String)) (bg : List Background) (x : String) (b : Bool)
    (e : String) (later : List Turn) (w : World σ) :
    sentSay (reader exec U (wholeLines ls
        ++ { before := bg, read := { line := x, isPrefix := b, err := some e } } :: later) w).trace
      = (if "/exit" ∈ ls.map Prod.snd
          then (ls.map Prod.snd).takeWhile (fun l => decide (l ≠ "/exit")) ++ ["/exit"]
          else ls.map Prod.snd ++ ["/exit"])
    ∧ (reader exec U (wholeLines ls
        ++ { before := bg, read := { line := x, isPrefix := b, err := some e } } :: later) w).task
      = (if "/exit" ∈ ls.map Prod.snd then TaskEnd.blockedSend else TaskEnd.returned)
    ∧ (reader exec U (wholeLines ls
        ++ { before := bg, read := { line := x, isPrefix := b, err := some e } } :: later)
        w).chatExit = true := by
  induction ls generalizing w with
  | nil =>
    simp [wholeLines, reader, sentSay, chatLoop_background]
  | cons p ps ih =>
    obtain ⟨bs, line⟩ := p
    rw [wholeLines_cons_append]
    by_cases hp : line = "/exit"
    · subst hp
      rw [reader_cons_exit]
      have hstall : (readerStalled U (wholeLines ps
          ++ { before := bg, read := { line := x, isPrefix := b, err := some e } } :: later)).2
          = TaskEnd.blockedSend := by
        cases ps with
        | nil => exact readerStalled_task U _ _
        | cons q qs =>
          rw [wholeLines_cons_append]
          exact readerStalled_task U _ _
      simp [sentSay_cons_print, sentSay_cons_sendSay, sentSay_readerStalled, hstall]
    · obtain ⟨ih1, ih2, ih3⟩ := ih (chatLoop exec U
        (bs.map Background.toAction ++ [Action.userLine line]) w).1
      have hne : ¬ ("/exit" = line) := fun h => hp h.symm
      rw [reader_cons_line exec U line bs _ w hp]
      refine ⟨?_, ?_, ?_⟩
      · simp only [sentSay_cons_print, sentSay_cons_sendSay]
        rw [ih1]
        by_cases hin : "/exit" ∈ ps.map Prod.snd
        · simp [hin, hp, hne, List.takeWhile]
        · simp [hin, hp, hne]
      · show (reader exec U _ _).task = _
        rw [ih2]
        simp only [List.map_cons, List.mem_cons, hne, false_or]
      · exact ih3

/-- What lines 91-100 do with a line that `ReadLine` returns in two pieces: the
piece "xxxx" flagged `isPrefix` and the rest "/who" are each sent on `saychan`,
and the loop handles the rest as a "/who" of its own. -/
theorem reader_sends_each_piece :
    sentSay (reader Redis.exec "alice"
        [{ before := [], read := { line := "xxxx", isPrefix := true, err := none } },
         { before := [], read := { line := "/who", isPrefix := false, err := none } }]
        ⟨Redis.ok Store.empty, []⟩).trace = ["xxxx", "/who"]
    ∧ (reader Redis.exec "alice"
        [{ before := [], read := { line := "xxxx", isPrefix := true, err := none } },
         { before := [], read := { line := "/who", isPrefix := false, err := none } }]
        ⟨Redis.ok Store.empty, []⟩).world.trace
      = [Effect.doCmd (Cmd.publish "messages" "alice:xxxx"),
         Effect.doCmd (Cmd.smembers "users")] := by
  have h1 : ("xxxx" : String) ≠ "/exit" := by decide
  have h2 : ("xxxx" : String) ≠ "/who" := by decide
  have h3 : ("/who" : String) ≠ "/exit" := by decide
  constructor
  · simp [reader, chatLoop, selectCase, h1, h2, h3, sentSay]
  · simp [reader, chatLoop, selectCase, h1, h2, h3, connDo, Redis.exec, Redis.ok, Store.apply,
      Store.empty, redisStrings]

/-- C9: for every sequence of pub/sub events the subscriber receives, what it
forwards is exactly the payloads, in order, of the messages that come before the
first error; acknowledgements are dropped without stopping it, and it returns at
the first error. -/
theorem subscriber_forwards (events : List Received) :
    sentSub (subscriber none events).1
      = (events.takeWhile (fun ev => !ev.isError)).filterMap Received.payload
    ∧ (subscriber none events).2
      = if events.any Received.isError then TaskEnd.returned else TaskEnd.blocked := by
  induction events with
  | nil => simp [subscriber, subscriberLoop, sentSub]
  | cons ev rest ih =>
    obtain ⟨ih1, ih2⟩ := ih
    simp only [subscriber] at ih1 ih2 ⊢
    cases ev with
    | message c d =>
      simp only [subscriberLoop, sentSub, List.filterMap_cons] at ih1 ⊢
      simp [Received.isError, Received.payload, ih1, ih2]
    | subscription k c n =>
      simp only [subscriberLoop]
      simp [Received.isError, Received.payload, ih1, ih2]
    | error e => simp [subscriberLoop, sentSub, Received.isError]
    | other =>
      simp only [subscriberLoop]
      simp [Received.isError, Received.payload, ih1, ih2]

/-! ## Leaving -/

/-- C3: for every username `U`, once `UserLine("/exit")` is handled the session
issues the delete of "online." ++ U, the set-remove of `U` from "users" and the
publish of `U ++ " has left"` on "messages", in this order and whatever the store
answers to each (the connection is arbitrary), then runs its deferred calls (a
second delete of the lease key, the close) and ends with exit status 0.  On a
store that applies the commands, the lease key is absent and `U` is not in the
set afterwards, so a new set-if-absent for `U` replies `OK`. -/
theorem exit_farewell (U : String) :
    (∀ (σ : Type) (exec : σ → Cmd → σ × DoResult) (rest : List Action) (w : World σ),
      (chat exec U (Action.userLine "/exit" :: rest) w).1.trace =
          w.trace ++ [Effect.doCmd (Cmd.del (userkey U)), Effect.doCmd (Cmd.srem "users" U),
            Effect.doCmd (Cmd.publish "messages" (U ++ " has left")),
            Effect.doCmd (Cmd.del (userkey U)), Effect.closeConn]
        ∧ (chat exec U (Action.userLine "/exit" :: rest) w).2 = Status.exited 0)
    ∧ (∀ (s : Store) (rest : List Action) (t : List Effect),
      ∃ s1 : Store,
        (chat Redis.exec U (Action.userLine "/exit" :: rest) ⟨Redis.ok s, t⟩).1.conn = Redis.ok s1
        ∧ s1.strings (userkey U) = none
        ∧ s1.live (userkey U) = false
        ∧ U ∉ s1.sets "users"
        ∧ s1.channel = s.channel ++ [("messages", U ++ " has left")]
        ∧ (s1.apply (Cmd.setNX (userkey U) U 120)).2 = Reply.status "OK") := by
  constructor
  · intro σ exec rest w
    simp [chat, chatLoop, selectCase, shutdown, connDo, emit]
  · intro s rest t
    refine ⟨((((s.apply (Cmd.del (userkey U))).1.apply (Cmd.srem "users" U)).1.apply
      (Cmd.publish "messages" (U ++ " has left"))).1.apply (Cmd.del (userkey U))).1,
      ?_, ?_, ?_, ?_, ?_, ?_⟩
    · simp [chat, chatLoop, selectCase, shutdown, connDo, emit, Redis.exec, Redis.ok]
    · simp [Store.apply]
    · simp [Store.apply, Store.live]
    · by_cases hm : U ∈ s.sets "users" <;> simp [Store.apply, hm]
    · by_cases hm : U ∈ s.sets "users" <;> simp [Store.apply, hm]
    · by_cases hm : U ∈ s.sets "users" <;> simp [Store.apply, Store.live, hm]

/-! ## Renewal and store errors in the loop -/

/-- C5, as the claim states it, fails: for "alice" on an empty store the renewal
is answered with a nil reply and no error, and handling the tick prints nothing. -/
theorem renew_missing_prints_nothing :
    (Redis.exec (Redis.ok Store.empty) (Cmd.setXX (userkey "alice") "alice" 120)).2
        = { val := Reply.nil, err := none }
    ∧ (selectCase Redis.exec "alice" Action.renewTick ⟨Redis.ok Store.empty, []⟩).1.trace
        = [Effect.doCmd (Cmd.setXX "online.alice" "alice" 120)]
    ∧ ¬ ∃ d, Effect.println d ∈
        (selectCase Redis.exec "alice" Action.renewTick ⟨Redis.ok Store.empty, []⟩).1.trace := by
  refine ⟨?_, ?_, ?_⟩
  · simp [Redis.exec, Redis.ok, Store.apply, Store.live, Store.empty]
  · simp [selectCase, connDo, Redis.exec, Redis.ok, Store.apply, Store.live, Store.empty]
    decide
  · simp [selectCase, connDo, Redis.exec, Redis.ok, Store.apply, Store.live, Store.empty]

/-- C5, amended: for every username `U`, when a RenewTick is handled while no
live lease exists under "online." ++ U, the loop issues the one
set-if-present-with-expiry, which leaves the store as it was, prints nothing, and
stays in Running. -/
theorem renew_missing_silent (U : String) (s : Store) (t : List Effect)
    (hdead : s.live (userkey U) = false) :
    selectCase Redis.exec U Action.renewTick ⟨Redis.ok s, t⟩ =
      ({ conn := Redis.ok s, trace := t ++ [Effect.doCmd (Cmd.setXX (userkey U) U 120)] },
        false) := by
  simp [selectCase, connDo, Redis.exec, Redis.ok, Store.apply, hdead]

/-- Witness of the amended C5 for "alice" on the empty store. -/
theorem renew_missing_silent_witness :
    Store.empty.live (userkey "alice") = false ∧
    selectCase Redis.exec "alice" Action.renewTick ⟨Redis.ok Store.empty, []⟩ =
      ({ conn := Redis.ok Store.empty,
         trace := [] ++ [Effect.doCmd (Cmd.setXX (userkey "alice") "alice" 120)] }, false) :=
  ⟨rfl, renew_missing_silent "alice" Store.empty [] rfl⟩

/-- C7, as the claim states it, fails: when the publish of the chat line "hello"
meets the store error "EOF", and when the set-members of "/who" does, the loop
prints nothing. -/
theorem publish_error_prints_nothing :
    (Redis.exec ⟨Store.empty, [some "EOF"]⟩ (Cmd.publish "messages" "alice:hello")).2.err
        = some "EOF"
    ∧ (selectCase Redis.exec "alice" (Action.userLine "hello")
        ⟨⟨Store.empty, [some "EOF"]⟩, []⟩).1.trace
        = [Effect.doCmd (Cmd.publish "messages" "alice:hello")]
    ∧ (Redis.exec ⟨Store.empty, [some "EOF"]⟩ (Cmd.smembers "users")).2.err = some "EOF"
    ∧ (selectCase Redis.exec "alice" (Action.userLine "/who")
        ⟨⟨Store.empty, [some "EOF"]⟩, []⟩).1.trace
        = [Effect.doCmd (Cmd.smembers "users")] := by
  refine ⟨?_, ?_, ?_, ?_⟩
  · simp [Redis.exec]
  · have h1 : ("hello" : String) ≠ "/exit" := by decide
    have h2 : ("hello" : String) ≠ "/who" := by decide
    simp [selectCase, connDo, h1, h2]
  · simp [Redis.exec]
  · have h : ("/who" : String) ≠ "/exit" := by decide
    simp [selectCase, connDo, h, Redis.exec, redisStrings]

/-- C7, amended: for every Running state and every connection, a store error on
the renewal of a RenewTick prints "Set failed"; a store error on the publish of a
chat line or on the set-members of "/who" prints nothing; in all three cases no
other command is issued and the loop stays in Running. -/
theorem loop_store_error {σ : Type} (exec : σ → Cmd → σ × DoResult) (U : String)
    (w : World σ) :
    (∀ e, (exec w.conn (Cmd.setXX (userkey U) U 120)).2.err = some e →
      selectCase exec U Action.renewTick w =
        ({ conn := (exec w.conn (Cmd.setXX (userkey U) U 120)).1,
           trace := w.trace ++ [Effect.doCmd (Cmd.setXX (userkey U) U 120),
             Effect.println "Set failed"] }, false))
    ∧ (∀ L e, L ≠ "/exit" → L ≠ "/who" →
      (exec w.conn (Cmd.publish "messages" (U ++ ":" ++ L))).2.err = some e →
      selectCase exec U (Action.userLine L) w =
        ({ conn := (exec w.conn (Cmd.publish "messages" (U ++ ":" ++ L))).1,
           trace := w.trace ++ [Effect.doCmd (Cmd.publish "messages" (U ++ ":" ++ L))] },
          false))
    ∧ (∀ e, (exec w.conn (Cmd.smembers "users")).2.err = some e →
      selectCase exec U (Action.userLine "/who") w =
        ({ conn := (exec w.conn (Cmd.smembers "users")).1,
           trace := w.trace ++ [Effect.doCmd (Cmd.smembers "users")] }, false)) := by
  refine ⟨?_, ?_, ?_⟩
  · intro e he
    simp [selectCase, connDo, he, println]
  · intro L e h1 h2 _
    simp [selectCase, connDo, h1, h2]
  · intro e he
    have h : ("/who" : String) ≠ "/exit" := by decide
    simp [selectCase, connDo, h, he, redisStrings]

/-- Witness of the amended C7 for "alice" on a connection whose next command
fails with "EOF". -/
theorem loop_store_error_witness :
    ((Redis.exec ⟨Store.empty, [some "EOF"]⟩ (Cmd.setXX (userkey "alice") "alice" 120)).2.err
        = some "EOF"
      ∧ selectCase Redis.exec "alice" Action.renewTick ⟨⟨Store.empty, [some "EOF"]⟩, []⟩ =
        ({ conn := (Redis.exec ⟨Store.empty, [some "EOF"]⟩
              (Cmd.setXX (userkey "alice") "alice" 120)).1,
           trace := [] ++ [Effect.doCmd (Cmd.setXX (userkey "alice") "alice" 120),
             Effect.println "Set failed"] }, false))
    ∧ ((("hello" : String) ≠ "/exit" ∧ ("hello" : String) ≠ "/who"
        ∧ (Redis.exec ⟨Store.empty, [some "EOF"]⟩
            (Cmd.publish "messages" ("alice" ++ ":" ++ "hello"))).2.err = some "EOF")
      ∧ selectCase Redis.exec "alice" (Action.userLine "hello")
          ⟨⟨Store.empty, [some "EOF"]⟩, []⟩ =
        ({ conn := (Redis.exec ⟨Store.empty, [some "EOF"]⟩
              (Cmd.publish "messages" ("alice" ++ ":" ++ "hello"))).1,
           trace := [] ++ [Effect.doCmd (Cmd.publish "messages" ("alice" ++ ":" ++ "hello"))] },
          false))
    ∧ ((Redis.exec ⟨Store.empty, [some "EOF"]⟩ (Cmd.smembers "users")).2.err = some "EOF"
      ∧ selectCase Redis.exec "alice" (Action.userLine "/who")
          ⟨⟨Store.empty, [some "EOF"]⟩, []⟩ =
        ({ conn := (Redis.exec ⟨Store.empty, [some "EOF"]⟩ (Cmd.smembers "users")).1,
           trace := [] ++ [Effect.doCmd (Cmd.smembers "users")] }, false)) :=
  ⟨⟨rfl, (loop_store_error Redis.exec "alice" ⟨⟨Store.empty, [some "EOF"]⟩, []⟩).1 "EOF" rfl⟩,
    ⟨⟨by decide, by decide, rfl⟩,
      (loop_store_error Redis.exec "alice" ⟨⟨Store.empty, [some "EOF"]⟩, []⟩).2.1
        "hello" "EOF" (by decide) (by decide) rfl⟩,
    ⟨rfl, (loop_store_error Redis.exec "alice" ⟨⟨Store.empty, [some "EOF"]⟩, []⟩).2.2
      "EOF" rfl⟩⟩

/-! ## Joining the membership set -/

/-- C6 at the input where it fails: "alice" is already a member of "users" and
holds no lease.  The set-add replies the integer 0 without error, and the session
goes on: it starts the ticker and both goroutines, publishes "alice has joined",
and is Running; nothing is printed and the process does not exit. -/
theorem join_already_member_goes_on :
    (Redis.exec (Redis.exec (Redis.ok Store.staleAlice)
        (Cmd.setNX (userkey "alice") "alice" 120)).1 (Cmd.sadd "users" "alice")).2
      = { val := Reply.int 0, err := none }
    ∧ (session Redis.exec "alice" [] ⟨Redis.ok Store.staleAlice, []⟩).1.trace
      = [Effect.doCmd (Cmd.setNX "online.alice" "alice" 120),
         Effect.doCmd (Cmd.sadd "users" "alice"),
         Effect.newTicker 60, Effect.goSubscriber, Effect.goReader,
         Effect.doCmd (Cmd.publish "messages" "alice has joined")]
    ∧ (session Redis.exec "alice" [] ⟨Redis.ok Store.staleAlice, []⟩).2 = Status.running := by
  refine ⟨?_, ?_, ?_⟩
  · simp [Redis.exec, Redis.ok, Store.apply, Store.live, Store.staleAlice, Store.empty]
  · simp [session, startup, launch, chat, chatLoop, connDo, emit, Redis.exec, Redis.ok,
      Store.apply, Store.live, Store.staleAlice, Store.empty]
    decide
  · simp [session, startup, launch, chat, chatLoop, connDo, emit, Redis.exec, Redis.ok,
      Store.apply, Store.live, Store.staleAlice, Store.empty]

/-- C10: for every username `U` and every store with no live lease for `U`, when
the set-add that follows the acquisition fails with a store error `e`, the
session prints `e` and exits with status 1 having issued the set-if-absent and the
set-add and nothing else, no delete among them.  The lease stays in the store,
expiring 120 units after the acquisition: a new set-if-absent for "online." ++ U
replies nil as long as fewer than 120 units have passed, and `OK` from then on. -/
theorem join_error_keeps_lease (U e : String) (s : Store) (fs : List (Option String))
    (actions : List Action) (t : List Effect) (hdead : s.live (userkey U) = false) :
    session Redis.exec U actions ⟨⟨s, none :: some e :: fs⟩, t⟩ =
      ({ conn := ⟨(s.apply (Cmd.setNX (userkey U) U 120)).1, fs⟩,
         trace := t ++ [Effect.doCmd (Cmd.setNX (userkey U) U 120),
           Effect.doCmd (Cmd.sadd "users" U), Effect.println e] }, Status.exited 1)
    ∧ (s.apply (Cmd.setNX (userkey U) U 120)).1.strings (userkey U) = some (U, s.now + 120)
    ∧ ∀ (d : Nat) (V : String),
        (((s.apply (Cmd.setNX (userkey U) U 120)).1.advance d).apply
            (Cmd.setNX (userkey U) V 120)).2
          = if d < 120 then Reply.nil else Reply.status "OK" := by
  refine ⟨?_, ?_, ?_⟩
  · simp [session, startup, connDo, println, Redis.exec, Store.apply, hdead]
  · simp [Store.apply, hdead]
  · intro d V
    rw [Store.apply_setNX_of_dead s (userkey U) U 120 hdead]
    by_cases hd : d < 120 <;> simp [Store.apply, Store.live_advance_of_set, hd]

/-- Witness of C10 for "alice" on the empty store, the set-add failing with "EOF". -/
theorem join_error_keeps_lease_witness :
    Store.empty.live (userkey "alice") = false ∧
    (session Redis.exec "alice" [] ⟨⟨Store.empty, none :: some "EOF" :: []⟩, []⟩ =
      ({ conn := ⟨(Store.empty.apply (Cmd.setNX (userkey "alice") "alice" 120)).1, []⟩,
         trace := [] ++ [Effect.doCmd (Cmd.setNX (userkey "alice") "alice" 120),
           Effect.doCmd (Cmd.sadd "users" "alice"), Effect.println "EOF"] }, Status.exited 1)
    ∧ (Store.empty.apply (Cmd.setNX (userkey "alice") "alice" 120)).1.strings (userkey "alice")
        = some ("alice", Store.empty.now + 120)
    ∧ ∀ (d : Nat) (V : String),
        (((Store.empty.apply (Cmd.setNX (userkey "alice") "alice" 120)).1.advance d).apply
            (Cmd.setNX (userkey "alice") V 120)).2
          = if d < 120 then Reply.nil else Reply.status "OK") :=
  ⟨rfl, join_error_keeps_lease "alice" "EOF" Store.empty [] [] [] rfl⟩

end GoRedChat
